import Mathlib

/-!
Shallow embedding of the WebXR playground's algorithmic core:
the day-night cycle controller, terrain height/color synthesis,
procedural tree placement, firefly animation, VR hand mirroring,
and time-of-day audio blending.  Numbers are modelled as rationals;
the trigonometric functions and the constant pi of the host language
are abstracted as parameters, since no claim depends on their values.
-/

namespace WebXR

/-- Truncation toward zero of a rational number, matching how the
JavaScript remainder operator truncates the quotient. -/
def ratTrunc (q : ℚ) : ℤ :=
  if 0 ≤ q then ⌊q⌋ else ⌈q⌉

/-- JavaScript remainder operator on numbers: a % b = a - b * trunc (a / b).
The result has the sign of the dividend a. -/
def jsMod (a b : ℚ) : ℚ :=
  a - b * (ratTrunc (a / b) : ℚ)

/-- RGB color as a triple of channel values (each channel is hex/255). -/
abbrev Color3 := ℚ × ℚ × ℚ

/-- THREE.Color.lerp: each channel moves toward the target by alpha. -/
def colorLerp (c₁ c₂ : Color3) (α : ℚ) : Color3 :=
  (c₁.1 + (c₂.1 - c₁.1) * α,
   c₁.2.1 + (c₂.2.1 - c₁.2.1) * α,
   c₁.2.2 + (c₂.2.2 - c₁.2.2) * α)

/-! ## Day-night cycle controller (setupDayNightCycle) -/

/-- Sky and light color/intensity constants of cycleParams (hex/255). -/
def daySkyTop : Color3 := (26/255, 140/255, 255/255)

def daySkyBottom : Color3 := (166/255, 230/255, 255/255)

def nightSkyTop : Color3 := (0, 0, 51/255)

def nightSkyBottom : Color3 := (0, 0, 102/255)

def dayLightColor : Color3 := (1, 1, 204/255)

def nightLightColor : Color3 := (58/255, 58/255, 106/255)

def dayLightIntensity : ℚ := 5/2

def nightLightIntensity : ℚ := 1/2

def dayAmbientColor : Color3 := (96/255, 96/255, 96/255)

def nightAmbientColor : Color3 := (32/255, 32/255, 64/255)

def dayAmbientIntensity : ℚ := 3/2

def nightAmbientIntensity : ℚ := 1/2

/-- Mutable state of the day-night controller together with the externally
owned sinks it writes each frame: sun/moon directional lights, the ambient
light, the sky dome shader colors, and the star field. -/
structure DayNightState where
  timeOfDay : ℚ
  dayDuration : ℚ
  paused : Bool
  sunPosition : ℚ × ℚ × ℚ
  moonPosition : ℚ × ℚ × ℚ
  sunIntensity : ℚ
  sunColor : Color3
  moonIntensity : ℚ
  moonColor : Color3
  ambientIntensity : ℚ
  ambientColor : Color3
  hasSkyDome : Bool
  skyTopColor : Color3
  skyBottomColor : Color3
  starsVisible : Bool
  starsOpacity : ℚ
deriving DecidableEq

/-- State right after setupDayNightCycle: timeOfDay 0.5, duration 240 s,
not paused, ambient at day values, stars hidden with zero opacity. -/
def initialDayNightState : DayNightState where
  timeOfDay := 1/2
  dayDuration := 240
  paused := false
  sunPosition := (0, 0, 0)
  moonPosition := (-1, 1, -1)
  sunIntensity := 1
  sunColor := dayLightColor
  moonIntensity := 0
  moonColor := nightLightColor
  ambientIntensity := dayAmbientIntensity
  ambientColor := dayAmbientColor
  hasSkyDome := true
  skyTopColor := daySkyTop
  skyBottomColor := daySkyBottom
  starsVisible := false
  starsOpacity := 0

/-- Day factor max(0, sin(timeOfDay * PI * 2)); sinQ and piQ stand for the
host trigonometric sine and the constant pi. -/
def dayFactor (sinQ : ℚ → ℚ) (piQ timeOfDay : ℚ) : ℚ :=
  max 0 (sinQ (timeOfDay * piQ * 2))

/-- Embedding of updateSunPosition (the optional visual-sun billboard held in
scene userData is outside the modelled sinks). -/
def updateSunPosition (sinQ cosQ : ℚ → ℚ) (piQ : ℚ) (s : DayNightState) :
    DayNightState :=
  let sunAngle := s.timeOfDay * piQ * 2
  let sunX := cosQ sunAngle
  let sunY := sinQ sunAngle
  { s with sunPosition := (sunX * 5, sunY * 10, 1),
           moonPosition := (-sunX * 5, -sunY * 10, -1) }

/-- Embedding of updateLighting. -/
def updateLighting (sinQ : ℚ → ℚ) (piQ : ℚ) (s : DayNightState) :
    DayNightState :=
  let d := dayFactor sinQ piQ s.timeOfDay
  let n := 1 - d
  { s with sunIntensity := dayLightIntensity * d,
           sunColor := dayLightColor,
           moonIntensity := nightLightIntensity * n,
           moonColor := nightLightColor,
           ambientIntensity := dayAmbientIntensity * d + nightAmbientIntensity * n,
           ambientColor := colorLerp dayAmbientColor nightAmbientColor n }

/-- Embedding of updateSkyColors (no-op when no sky dome was found). -/
def updateSkyColors (sinQ : ℚ → ℚ) (piQ : ℚ) (s : DayNightState) :
    DayNightState :=
  if s.hasSkyDome then
    let n := 1 - dayFactor sinQ piQ s.timeOfDay
    { s with skyTopColor := colorLerp daySkyTop nightSkyTop n,
             skyBottomColor := colorLerp daySkyBottom nightSkyBottom n }
  else s

/-- Embedding of updateStars. -/
def updateStars (sinQ : ℚ → ℚ) (piQ : ℚ) (s : DayNightState) : DayNightState :=
  let d := dayFactor sinQ piQ s.timeOfDay
  { s with starsVisible := decide (d < 1/10),
           starsOpacity := max 0 (1/10 - d) / (1/10) }

/-- Embedding of the controller's update(delta): bail out when paused, advance
timeOfDay with the JS remainder, then refresh every derived sink. -/
def update (sinQ cosQ : ℚ → ℚ) (piQ delta : ℚ) (s : DayNightState) :
    DayNightState :=
  if s.paused then s
  else
    let s₁ := { s with timeOfDay := jsMod (s.timeOfDay + delta / s.dayDuration) 1 }
    updateStars sinQ piQ
      (updateSkyColors sinQ piQ
        (updateLighting sinQ piQ
          (updateSunPosition sinQ cosQ piQ s₁)))

/-- Embedding of setTimeOfDay. -/
def setTimeOfDay (t : ℚ) (s : DayNightState) : DayNightState :=
  { s with timeOfDay := jsMod t 1 }

/-- Embedding of togglePause (returned flag, new state). -/
def togglePause (s : DayNightState) : Bool × DayNightState :=
  (!s.paused, { s with paused := !s.paused })

/-- Embedding of setCycleSpeed. -/
def setCycleSpeed (d : ℚ) (s : DayNightState) : DayNightState :=
  if 0 < d then { s with dayDuration := d } else s

/-! ## Terrain color synthesis (applyTerrainColors in the terrain module) -/

/-- Base terrain palette (hex/255). -/
def grassColor : Color3 := (59/255, 125/255, 78/255)

def darkGrassColor : Color3 := (45/255, 93/255, 59/255)

def dirtColor : Color3 := (139/255, 69/255, 19/255)

def lightGrassColor : Color3 := (124/255, 173/255, 109/255)

/-- Branches of the per-vertex color choice in applyTerrainColors. -/
inductive TerrainColorBranch where
  | dirtBlend
  | grass
  | lightGrass
deriving DecidableEq

/-- Branch taken by applyTerrainColors for a vertex of the given height,
following the source's if height < 0 / else if height < 2 / else chain. -/
def terrainColorBranch (height : ℚ) : TerrainColorBranch :=
  if height < 0 then TerrainColorBranch.dirtBlend
  else if height < 2 then TerrainColorBranch.grass
  else TerrainColorBranch.lightGrass

/-- Color produced by applyTerrainColors for one vertex; r₁, rR, rG, rB are
the Math.random() draws used by the branch that fires. -/
def terrainVertexColor (height r₁ rR rG rB : ℚ) : Color3 :=
  if height < 0 then
    colorLerp dirtColor darkGrassColor (3/10 + r₁ * (3/10))
  else if height < 2 then
    (grassColor.1 + (rR - 1/2) * (1/10),
     grassColor.2.1 + (rG - 1/2) * (1/10),
     grassColor.2.2 + (rB - 1/2) * (1/10))
  else
    colorLerp grassColor lightGrassColor (min 1 ((height - 2) / 3))

/-! ## Terrain elevation synthesis (applyHeightMap) -/

/-- Three-octave noise sum of applyHeightMap, scaled by the intensity
constant; noiseF stands for the simplex-noise sample function. -/
def heightSample (noiseF : ℚ → ℚ → ℚ) (intensity x z : ℚ) : ℚ :=
  let noise1 := noiseF (x * (1/100)) (z * (1/100)) * (1/2)
  let noise2 := noiseF (x * (5/100)) (z * (5/100)) * (1/4)
  let noise3 := noiseF (x * (2/10)) (z * (2/10)) * (1/8)
  (noise1 + noise2 + noise3) * intensity

/-- Flattening roll of applyHeightMap: Math.random() > 0.97. -/
def flattenRoll (r : ℚ) : Bool :=
  decide ((97/100 : ℚ) < r)

/-- Elevation applyHeightMap writes for one vertex, where r is the
Math.random() draw deciding the occasional flat spot. -/
def applyHeightMapVertex (noiseF : ℚ → ℚ → ℚ) (intensity x z r : ℚ) : ℚ :=
  let h := heightSample noiseF intensity x z
  if flattenRoll r then h * (1/10) else h

/-! ## Procedural tree placement (createProceduralTrees) -/

/-- Placement record kept for an accepted tree candidate. -/
structure TreePlacement where
  x : ℚ
  z : ℚ
  typeIndex : ℤ
deriving DecidableEq

/-- Number of entries of the treeTypes archetype array. -/
def treeTypesLength : ℤ := 3

/-- Per-candidate body of the createProceduralTrees loop: given the polar
position (x, z) and the noise sample there, either discard the candidate
(noise below -0.3) or emit the perturbed position and the archetype index
Math.floor((noise + 1) * 1.5) % treeTypes.length (JS remainder = tmod). -/
def treeCandidate (x z noiseValue : ℚ) : Option TreePlacement :=
  if noiseValue < -(3/10) then none
  else some
    { x := x + noiseValue * 10,
      z := z + noiseValue * 10,
      typeIndex := Int.tmod ⌊(noiseValue + 1) * (3/2)⌋ treeTypesLength }

/-! ## Firefly animation (addFireflies in the terrain module) -/

/-- Immutable per-firefly userData written at creation time. -/
structure FireflyData where
  originalX : ℚ
  originalY : ℚ
  originalZ : ℚ
  speed : ℚ
  phase : ℚ
deriving DecidableEq

/-- A firefly instance: current transform plus its fixed userData. -/
structure FireflyInst where
  posX : ℚ
  posY : ℚ
  posZ : ℚ
  scale : ℚ
  data : FireflyData
deriving DecidableEq

/-- Body of the forEach in fireflies.update for the firefly at the given
index; time is the wall-clock reading Date.now() * 0.001. -/
def fireflyStep (sinQ cosQ : ℚ → ℚ) (time : ℚ) (index : ℕ) (f : FireflyInst) :
    FireflyInst :=
  let d := f.data
  let horizontalPhase := d.phase + (index : ℚ)
  { f with
    posY := d.originalY + sinQ (time * d.speed + d.phase) * (1/2),
    posX := d.originalX + sinQ (time * (2/10) + horizontalPhase) * 1,
    posZ := d.originalZ + cosQ (time * (2/10) + horizontalPhase) * 1,
    scale := 8/10 + sinQ (time * 2 + (index : ℚ)) * (2/10) }

/-- Recursion over the children list carrying the forEach index. -/
def updateFirefliesFrom (sinQ cosQ : ℚ → ℚ) (time : ℚ) :
    ℕ → List FireflyInst → List FireflyInst
  | _, [] => []
  | i, f :: fs =>
    fireflyStep sinQ cosQ time i f :: updateFirefliesFrom sinQ cosQ time (i + 1) fs

/-- Embedding of fireflies.update(delta): the delta argument is accepted and
ignored, exactly as in the source; motion depends only on the wall clock. -/
def updateFireflies (sinQ cosQ : ℚ → ℚ) (delta time : ℚ)
    (fs : List FireflyInst) : List FireflyInst :=
  updateFirefliesFrom sinQ cosQ time 0 fs

/-- Run a whole history of update calls, each with its delta argument and the
wall-clock reading at which it fired. -/
def runFireflyHistory (sinQ cosQ : ℚ → ℚ) (hist : List (ℚ × ℚ))
    (fs : List FireflyInst) : List FireflyInst :=
  hist.foldl (fun acc p => updateFireflies sinQ cosQ p.1 p.2 acc) fs

/-! ## Player hand mirroring (createPlayer / updateHands) -/

/-- Tracked controller pose consumed by updateHands. -/
structure Pose where
  position : ℚ × ℚ × ℚ
  quaternion : ℚ × ℚ × ℚ × ℚ
deriving DecidableEq

/-- Hand model state: visibility flag plus mirrored transform. -/
structure Hand where
  visible : Bool
  position : ℚ × ℚ × ℚ
  quaternion : ℚ × ℚ × ℚ × ℚ
deriving DecidableEq

/-- Hands right after createPlayer: both hidden, at the default transform. -/
def initialPlayerHands : Hand × Hand :=
  ({ visible := false, position := (0, 0, 0), quaternion := (0, 0, 0, 1) },
   { visible := false, position := (0, 0, 0), quaternion := (0, 0, 0, 1) })

/-- Embedding of updateHands: the source's controllers.length > i guards
followed by controllers[i] accesses are rendered as optional indexing. -/
def updateHands (controllers : List Pose) (hands : Hand × Hand) :
    Hand × Hand :=
  let left :=
    match controllers[0]? with
    | some c => { visible := true, position := c.position, quaternion := c.quaternion }
    | none => hands.1
  let right :=
    match controllers[1]? with
    | some c => { visible := true, position := c.position, quaternion := c.quaternion }
    | none => hands.2
  (left, right)

/-! ## Time-of-day audio blending (updateAudioForTimeOfDay) -/

/-- Module-level day/night label kept by the audio component. -/
inductive DayNightPhase where
  | day
  | night
deriving DecidableEq

/-- Audio state touched by updateAudioForTimeOfDay; the birds and night
sources are assumed created (the early-return guard for missing sources
is outside this per-call model). -/
structure AudioState where
  birdsPlaying : Bool
  birdsVolume : ℚ
  nightPlaying : Bool
  nightVolume : ℚ
  phase : DayNightPhase
deriving DecidableEq

/-- Embedding of updateAudioForTimeOfDay. -/
def updateAudioForTimeOfDay (sinQ : ℚ → ℚ) (piQ timeOfDay : ℚ)
    (a : AudioState) : AudioState :=
  let d := dayFactor sinQ piQ timeOfDay
  let n := 1 - d
  let newState := if (3/10 : ℚ) < d then DayNightPhase.day else DayNightPhase.night
  { a with
    birdsVolume := if a.birdsPlaying then (1/2) * d else a.birdsVolume,
    nightVolume := if a.nightPlaying then (1/2) * n else a.nightVolume,
    phase := newState }

/-! ## Helper lemmas -/

theorem jsMod_one_of_nonneg (a : ℚ) (ha : 0 ≤ a) : jsMod a 1 = Int.fract a := by
  rw [jsMod, ratTrunc, div_one, if_pos ha, Int.fract]
  ring

theorem update_timeOfDay (sinQ cosQ : ℚ → ℚ) (piQ delta : ℚ)
    (s : DayNightState) :
    (update sinQ cosQ piQ delta s).timeOfDay =
      if s.paused then s.timeOfDay
      else jsMod (s.timeOfDay + delta / s.dayDuration) 1 := by
  by_cases h : s.paused <;>
    simp [update, updateStars, updateSkyColors, updateLighting,
      updateSunPosition, h, apply_ite DayNightState.timeOfDay]

/-! ## Claim theorems -/

/-- C1: for every starting time t0 ≥ 0 and every dt ≥ 0, if paused is false
and the cycle duration is D, setTimeOfDay(t0) followed by update(dt) leaves
the stored time-of-day equal to (t0 + dt/D) mod 1; over the rational model
the identity is exact. -/
theorem setTimeOfDay_then_update_mod (sinQ cosQ : ℚ → ℚ) (piQ t₀ dt : ℚ)
    (s : DayNightState) (ht : 0 ≤ t₀) (hdt : 0 ≤ dt) (hp : s.paused = false)
    (hD : 0 < s.dayDuration) :
    (update sinQ cosQ piQ dt (setTimeOfDay t₀ s)).timeOfDay =
      Int.fract (t₀ + dt / s.dayDuration) := by
  rw [update_timeOfDay]
  have hp' : (setTimeOfDay t₀ s).paused = false := hp
  rw [hp']
  simp only [setTimeOfDay, Bool.false_eq_true, if_false]
  rw [jsMod_one_of_nonneg t₀ ht,
    jsMod_one_of_nonneg _
      (add_nonneg (Int.fract_nonneg t₀) (div_nonneg hdt hD.le))]
  rw [show Int.fract t₀ + dt / s.dayDuration =
        t₀ + dt / s.dayDuration - (⌊t₀⌋ : ℤ) from by rw [Int.fract]; ring,
    Int.fract_sub_int]

theorem setTimeOfDay_then_update_mod_witness :
    (update (fun _ => 0) (fun _ => 0) 0 1
        (setTimeOfDay (3/2) initialDayNightState)).timeOfDay =
      Int.fract ((3/2 : ℚ) + 1 / initialDayNightState.dayDuration) :=
  setTimeOfDay_then_update_mod (fun _ => 0) (fun _ => 0) 0 (3/2) 1
    initialDayNightState (by norm_num) (by norm_num) rfl (by norm_num [initialDayNightState])

/-- C3 counterexample: setTimeOfDay(-1/2) stores -1/2, which is not in
[0,1): the JS remainder keeps the sign of a negative dividend, so the claim
fails for negative arguments. -/
theorem setTimeOfDay_neg_escapes_interval :
    (setTimeOfDay (-(1/2)) initialDayNightState).timeOfDay = -(1/2) ∧
    ¬ 0 ≤ (setTimeOfDay (-(1/2)) initialDayNightState).timeOfDay := by
  have h : (setTimeOfDay (-(1/2)) initialDayNightState).timeOfDay = -(1/2) := by
    norm_num [setTimeOfDay, jsMod, ratTrunc]
  exact ⟨h, by rw [h]; norm_num⟩

/-- C3 amended: for every t ≥ 0, setTimeOfDay(t) stores a value in [0,1);
for every dt ≥ 0, update(dt) keeps a stored value in [0,1) inside [0,1)
(wrapping at 1 back toward 0); togglePause and setCycleSpeed leave the
stored time-of-day unchanged. -/
theorem timeOfDay_invariant (sinQ cosQ : ℚ → ℚ) (piQ t dt : ℚ)
    (s : DayNightState) (ht : 0 ≤ t) (hdt : 0 ≤ dt) (hD : 0 < s.dayDuration)
    (h0 : 0 ≤ s.timeOfDay) (h1 : s.timeOfDay < 1) :
    (0 ≤ (setTimeOfDay t s).timeOfDay ∧ (setTimeOfDay t s).timeOfDay < 1) ∧
    (0 ≤ (update sinQ cosQ piQ dt s).timeOfDay ∧
      (update sinQ cosQ piQ dt s).timeOfDay < 1) ∧
    (togglePause s).2.timeOfDay = s.timeOfDay ∧
    ∀ d, (setCycleSpeed d s).timeOfDay = s.timeOfDay := by
  refine ⟨?_, ?_, rfl, ?_⟩
  · have h : (setTimeOfDay t s).timeOfDay = Int.fract t := by
      simp [setTimeOfDay, jsMod_one_of_nonneg t ht]
    rw [h]
    exact ⟨Int.fract_nonneg t, Int.fract_lt_one t⟩
  · rw [update_timeOfDay]
    by_cases hp : s.paused
    · rw [if_pos hp]; exact ⟨h0, h1⟩
    · rw [if_neg hp,
        jsMod_one_of_nonneg _ (add_nonneg h0 (div_nonneg hdt hD.le))]
      exact ⟨Int.fract_nonneg _, Int.fract_lt_one _⟩
  · intro d
    by_cases hd : 0 < d <;> simp [setCycleSpeed, hd]

theorem timeOfDay_invariant_witness :
    (0 ≤ (setTimeOfDay 3 initialDayNightState).timeOfDay ∧
      (setTimeOfDay 3 initialDayNightState).timeOfDay < 1) ∧
    (0 ≤ (update (fun _ => 0) (fun _ => 0) 0 7 initialDayNightState).timeOfDay ∧
      (update (fun _ => 0) (fun _ => 0) 0 7 initialDayNightState).timeOfDay < 1) ∧
    (togglePause initialDayNightState).2.timeOfDay =
      initialDayNightState.timeOfDay ∧
    ∀ d, (setCycleSpeed d initialDayNightState).timeOfDay =
      initialDayNightState.timeOfDay :=
  timeOfDay_invariant (fun _ => 0) (fun _ => 0) 0 3 7 initialDayNightState
    (by norm_num) (by norm_num) (by norm_num [initialDayNightState])
    (by norm_num [initialDayNightState]) (by norm_num [initialDayNightState])

/-- C6: setCycleSpeed(d) with d ≤ 0 is a silent no-op that leaves the whole
state (in particular the cycle duration) unchanged; with d > 0 it sets the
cycle duration to d and changes nothing else. -/
theorem setCycleSpeed_spec (d : ℚ) (s : DayNightState) :
    (d ≤ 0 → setCycleSpeed d s = s) ∧
    (0 < d → setCycleSpeed d s = { s with dayDuration := d }) := by
  constructor
  · intro h
    simp [setCycleSpeed, not_lt.mpr h]
  · intro h
    simp [setCycleSpeed, h]

theorem setCycleSpeed_spec_witness :
    setCycleSpeed (-5) initialDayNightState = initialDayNightState ∧
    setCycleSpeed 60 initialDayNightState =
      { initialDayNightState with dayDuration := 60 } :=
  ⟨(setCycleSpeed_spec (-5) initialDayNightState).1 (by norm_num),
   (setCycleSpeed_spec 60 initialDayNightState).2 (by norm_num)⟩

/-- C7: if paused is true then update(dt) changes nothing at all: the state
(time-of-day, sun and moon positions, intensities and colors, ambient light,
sky dome colors, star visibility and opacity) is returned untouched. -/
theorem update_paused_noop (sinQ cosQ : ℚ → ℚ) (piQ dt : ℚ)
    (s : DayNightState) (hp : s.paused = true) :
    update sinQ cosQ piQ dt s = s := by
  simp [update, hp]

theorem update_paused_noop_witness :
    update (fun _ => 0) (fun _ => 1) 3 5
        { initialDayNightState with paused := true } =
      { initialDayNightState with paused := true } :=
  update_paused_noop (fun _ => 0) (fun _ => 1) 3 5
    { initialDayNightState with paused := true } rfl

/-- C2 counterexample: elevation exactly 0 is NOT colored by the low/dirt-
blend branch (the lower bound is the strict test height < 0, so 0 lands in
the grass branch), and elevation exactly 2 is NOT colored by the regular-
grass branch (the strict test height < 2 sends 2 to the lighter-grass
branch). -/
theorem terrainColorBranch_boundary_counterexample :
    terrainColorBranch 0 ≠ TerrainColorBranch.dirtBlend ∧
    terrainColorBranch 2 ≠ TerrainColorBranch.grass := by
  have h0 : terrainColorBranch 0 = TerrainColorBranch.grass := by
    norm_num [terrainColorBranch]
  have h2 : terrainColorBranch 2 = TerrainColorBranch.lightGrass := by
    norm_num [terrainColorBranch]
  rw [h0, h2]
  exact ⟨by decide, by decide⟩

/-- C2 amended: a vertex whose elevation is exactly 0 is colored by the
regular-grass branch and a vertex whose elevation is exactly 2 by the
lighter-grass branch; both bracket bounds are strict, so the grass bracket
is exactly 0 ≤ height < 2, and on it the emitted color is the base grass
color with the ±0.05 per-channel jitter. -/
theorem terrainColorBranch_boundaries :
    terrainColorBranch 0 = TerrainColorBranch.grass ∧
    terrainColorBranch 2 = TerrainColorBranch.lightGrass ∧
    (∀ h : ℚ, terrainColorBranch h = TerrainColorBranch.dirtBlend ↔ h < 0) ∧
    (∀ h : ℚ, terrainColorBranch h = TerrainColorBranch.grass ↔ 0 ≤ h ∧ h < 2) ∧
    (∀ h r₁ rR rG rB : ℚ, terrainColorBranch h = TerrainColorBranch.grass →
      terrainVertexColor h r₁ rR rG rB =
        (grassColor.1 + (rR - 1/2) * (1/10),
         grassColor.2.1 + (rG - 1/2) * (1/10),
         grassColor.2.2 + (rB - 1/2) * (1/10))) := by
  refine ⟨by simp [terrainColorBranch], by simp [terrainColorBranch], ?_, ?_, ?_⟩
  · intro h
    unfold terrainColorBranch
    split_ifs with h1 h2 <;> simp [h1]
  · intro h
    unfold terrainColorBranch
    split_ifs with h1 h2
    · simp only [iff_false_intro (by decide : ¬ TerrainColorBranch.dirtBlend =
        TerrainColorBranch.grass), false_iff, not_and]
      intro h0
      exact absurd h1 (not_lt.mpr h0)
    · exact iff_of_true rfl ⟨not_lt.mp h1, h2⟩
    · simp only [iff_false_intro (by decide : ¬ TerrainColorBranch.lightGrass =
        TerrainColorBranch.grass), false_iff, not_and]
      intro _
      exact not_lt.mpr (not_lt.mp h2)
  · intro h r₁ rR rG rB hb
    unfold terrainColorBranch at hb
    unfold terrainVertexColor
    split_ifs at hb ⊢ with h1 h2 <;> simp_all

theorem terrainColorBranch_boundaries_witness :
    terrainColorBranch 0 = TerrainColorBranch.grass ∧
    (terrainColorBranch 1 = TerrainColorBranch.grass ↔ (0:ℚ) ≤ 1 ∧ (1:ℚ) < 2) ∧
    terrainVertexColor 1 0 (1/2) (1/2) (1/2) =
      (grassColor.1 + ((1/2) - 1/2) * (1/10),
       grassColor.2.1 + ((1/2) - 1/2) * (1/10),
       grassColor.2.2 + ((1/2) - 1/2) * (1/10)) := by
  have h := terrainColorBranch_boundaries
  exact ⟨h.1, h.2.2.2.1 1,
    h.2.2.2.2 1 0 (1/2) (1/2) (1/2) (by norm_num [terrainColorBranch])⟩

/-- C4: a tree-placement candidate is discarded exactly when the noise
sample at its position is below the -0.3 clearing threshold; every accepted
candidate has its position perturbed by noise*10 on both horizontal axes
and gets archetype index floor((noise+1)*1.5) % 3, which is always a valid
index into the closed archetype set. -/
theorem treeCandidate_spec (x z n : ℚ) :
    (treeCandidate x z n = none ↔ n < -(3/10)) ∧
    ∀ p : TreePlacement, treeCandidate x z n = some p →
      p.x = x + n * 10 ∧ p.z = z + n * 10 ∧
      0 ≤ p.typeIndex ∧ p.typeIndex < treeTypesLength := by
  constructor
  · unfold treeCandidate
    split_ifs with h <;> simp [h]
  · intro p hp
    unfold treeCandidate at hp
    split_ifs at hp with h
    have hn : 0 ≤ (n + 1) * (3/2) := by nlinarith [not_lt.mp h]
    have hfl : (0 : ℤ) ≤ ⌊(n + 1) * (3/2)⌋ := Int.floor_nonneg.mpr hn
    obtain rfl : p =
        { x := x + n * 10, z := z + n * 10,
          typeIndex := Int.tmod ⌊(n + 1) * (3/2)⌋ treeTypesLength } :=
      (Option.some.injEq _ _).mp hp.symm
    exact ⟨rfl, rfl, Int.tmod_nonneg _ hfl,
      Int.tmod_lt_of_pos _ (by norm_num [treeTypesLength])⟩

theorem treeCandidate_spec_witness :
    (treeCandidate 0 0 (1/2) = none ↔ (1/2 : ℚ) < -(3/10)) ∧
    ((0 : ℚ) + (1/2) * 10 = (⟨5, 5, 2⟩ : TreePlacement).x ∧
      (0 ≤ (⟨5, 5, 2⟩ : TreePlacement).typeIndex ∧
        (⟨5, 5, 2⟩ : TreePlacement).typeIndex < treeTypesLength)) := by
  have h := treeCandidate_spec 0 0 (1/2)
  have hsome : treeCandidate 0 0 (1/2) = some ⟨5, 5, 2⟩ := by
    norm_num [treeCandidate, treeTypesLength,
      show ⌊((1:ℚ)/2 + 1) * (3/2)⌋ = 2 from by norm_num [Int.floor_eq_iff]]
    rfl
  have h2 := h.2 ⟨5, 5, 2⟩ hsome
  exact ⟨h.1, h2.1.symm, h2.2.2⟩

/-- C5: the synthesized elevation for a vertex at (x, z) is the 3-octave sum
noise(0.01x,0.01z)*0.5 + noise(0.05x,0.05z)*0.25 + noise(0.2x,0.2z)*0.125
scaled by the intensity constant, except that the random draw flattens the
sample to 10% of that height exactly when it exceeds 0.97 — an event of
probability 3% for a uniform draw on [0,1). -/
theorem applyHeightMapVertex_spec (noiseF : ℚ → ℚ → ℚ) (intensity x z r : ℚ) :
    applyHeightMapVertex noiseF intensity x z r =
      (if (97/100 : ℚ) < r then (1/10 : ℚ) else 1) *
        ((noiseF ((1/100) * x) ((1/100) * z) * (5/10) +
          noiseF ((5/100) * x) ((5/100) * z) * (25/100) +
          noiseF ((2/10) * x) ((2/10) * z) * (125/1000)) * intensity) ∧
    (∀ q : ℚ, q ∈ Set.Ico (0 : ℚ) 1 →
      (flattenRoll q = true ↔ q ∈ Set.Ioo (97/100 : ℚ) 1)) ∧
    (1 : ℚ) - 97/100 = 3/100 := by
  refine ⟨?_, ?_, by norm_num⟩
  · unfold applyHeightMapVertex heightSample flattenRoll
    rw [show (1/100 : ℚ) * x = x * (1/100) from mul_comm _ _,
      show (1/100 : ℚ) * z = z * (1/100) from mul_comm _ _,
      show (5/100 : ℚ) * x = x * (5/100) from mul_comm _ _,
      show (5/100 : ℚ) * z = z * (5/100) from mul_comm _ _,
      show (2/10 : ℚ) * x = x * (2/10) from mul_comm _ _,
      show (2/10 : ℚ) * z = z * (2/10) from mul_comm _ _]
    simp only [decide_eq_true_eq]
    split_ifs with h <;> ring
  · intro q hq
    simp only [flattenRoll, decide_eq_true_eq, Set.mem_Ioo]
    exact ⟨fun h => ⟨h, hq.2⟩, fun h => h.1⟩

theorem applyHeightMapVertex_spec_witness :
    applyHeightMapVertex (fun _ _ => 1) 5 0 0 (99/100) =
      (if (97/100 : ℚ) < 99/100 then (1/10 : ℚ) else 1) *
        (((fun _ _ => (1:ℚ)) ((1/100) * (0:ℚ)) ((1/100) * (0:ℚ)) * (5/10) +
          (fun _ _ => (1:ℚ)) ((5/100) * (0:ℚ)) ((5/100) * (0:ℚ)) * (25/100) +
          (fun _ _ => (1:ℚ)) ((2/10) * (0:ℚ)) ((2/10) * (0:ℚ)) * (125/1000)) * 5) ∧
    ((99/100 : ℚ) ∈ Set.Ico (0 : ℚ) 1 →
      (flattenRoll (99/100) = true ↔ (99/100 : ℚ) ∈ Set.Ioo (97/100 : ℚ) 1)) := by
  have h := applyHeightMapVertex_spec (fun _ _ => 1) 5 0 0 (99/100)
  exact ⟨h.1, fun hq => h.2.1 (99/100) hq⟩

theorem fireflyStep_congr (sinQ cosQ : ℚ → ℚ) (time : ℚ) (i : ℕ)
    (f₁ f₂ : FireflyInst) (h : f₁.data = f₂.data) :
    fireflyStep sinQ cosQ time i f₁ = fireflyStep sinQ cosQ time i f₂ := by
  cases f₁
  cases f₂
  cases h
  rfl

theorem updateFirefliesFrom_congr (sinQ cosQ : ℚ → ℚ) (time : ℚ) :
    ∀ (i : ℕ) (fs₁ fs₂ : List FireflyInst),
      fs₁.map FireflyInst.data = fs₂.map FireflyInst.data →
      updateFirefliesFrom sinQ cosQ time i fs₁ =
        updateFirefliesFrom sinQ cosQ time i fs₂
  | _, [], [], _ => rfl
  | i, f₁ :: t₁, f₂ :: t₂, h => by
    have hh : f₁.data = f₂.data := by simpa using congrArg List.head? h
    have ht : t₁.map FireflyInst.data = t₂.map FireflyInst.data := by
      simpa using congrArg List.tail h
    rw [updateFirefliesFrom, updateFirefliesFrom,
      fireflyStep_congr sinQ cosQ time i f₁ f₂ hh,
      updateFirefliesFrom_congr sinQ cosQ time (i + 1) t₁ t₂ ht]

theorem updateFirefliesFrom_data (sinQ cosQ : ℚ → ℚ) (time : ℚ) :
    ∀ (i : ℕ) (fs : List FireflyInst),
      (updateFirefliesFrom sinQ cosQ time i fs).map FireflyInst.data =
        fs.map FireflyInst.data
  | _, [] => rfl
  | i, f :: t => by
    rw [updateFirefliesFrom, List.map_cons, List.map_cons,
      updateFirefliesFrom_data sinQ cosQ time (i + 1) t]
    rfl

theorem runFireflyHistory_data (sinQ cosQ : ℚ → ℚ) :
    ∀ (hist : List (ℚ × ℚ)) (fs : List FireflyInst),
      (runFireflyHistory sinQ cosQ hist fs).map FireflyInst.data =
        fs.map FireflyInst.data
  | [], _ => rfl
  | p :: hist, fs => by
    rw [runFireflyHistory, List.foldl_cons]
    rw [show List.foldl (fun acc q => updateFireflies sinQ cosQ q.1 q.2 acc)
          (updateFireflies sinQ cosQ p.1 p.2 fs) hist =
        runFireflyHistory sinQ cosQ hist
          (updateFireflies sinQ cosQ p.1 p.2 fs) from rfl]
    rw [runFireflyHistory_data sinQ cosQ hist, updateFireflies,
      updateFirefliesFrom_data]

/-- C8: after a call of the firefly group's update, each firefly's position
and scale are a pure function of the wall-clock reading and its fixed
userData (original position, speed, phase) and of its index: the delta
argument, the previous transforms, and any earlier update calls of the run
are irrelevant, so runs observed at the same wall-clock time coincide. -/
theorem fireflies_stateless_replay (sinQ cosQ : ℚ → ℚ) (d₁ d₂ time : ℚ)
    (fs₁ fs₂ : List FireflyInst)
    (hdata : fs₁.map FireflyInst.data = fs₂.map FireflyInst.data) :
    updateFireflies sinQ cosQ d₁ time fs₁ =
      updateFireflies sinQ cosQ d₂ time fs₂ ∧
    ∀ hist : List (ℚ × ℚ),
      updateFireflies sinQ cosQ d₁ time (runFireflyHistory sinQ cosQ hist fs₁) =
        updateFireflies sinQ cosQ d₂ time fs₂ := by
  constructor
  · rw [updateFireflies, updateFireflies]
    exact updateFirefliesFrom_congr sinQ cosQ time 0 fs₁ fs₂ hdata
  · intro hist
    rw [updateFireflies, updateFireflies]
    refine updateFirefliesFrom_congr sinQ cosQ time 0 _ fs₂ ?_
    rw [runFireflyHistory_data sinQ cosQ hist fs₁, hdata]

theorem fireflies_stateless_replay_witness :
    updateFireflies (fun _ => 0) (fun _ => 1) 5 10
        [{ posX := 9, posY := 9, posZ := 9, scale := 9,
           data := { originalX := 1, originalY := 2, originalZ := 3,
                     speed := 1, phase := 0 } }] =
      updateFireflies (fun _ => 0) (fun _ => 1) 7 10
        [{ posX := 0, posY := 0, posZ := 0, scale := 1,
           data := { originalX := 1, originalY := 2, originalZ := 3,
                     speed := 1, phase := 0 } }] :=
  (fireflies_stateless_replay (fun _ => 0) (fun _ => 1) 5 7 10
    [{ posX := 9, posY := 9, posZ := 9, scale := 9,
       data := { originalX := 1, originalY := 2, originalZ := 3,
                 speed := 1, phase := 0 } }]
    [{ posX := 0, posY := 0, posZ := 0, scale := 1,
       data := { originalX := 1, originalY := 2, originalZ := 3,
                 speed := 1, phase := 0 } }] rfl).1

/-- C9: both hands start hidden; updateHands makes hand i visible with the
pose's position and orientation copied verbatim whenever a pose at index i
is present, leaves hand i entirely unchanged when the pose list has fewer
than i+1 entries, and never hides a hand that has become visible. -/
theorem updateHands_spec (cs : List Pose) (l r : Hand) :
    (initialPlayerHands.1.visible = false ∧
      initialPlayerHands.2.visible = false) ∧
    (∀ c, cs[0]? = some c → (updateHands cs (l, r)).1 =
      { visible := true, position := c.position, quaternion := c.quaternion }) ∧
    (cs[0]? = none → (updateHands cs (l, r)).1 = l) ∧
    (∀ c, cs[1]? = some c → (updateHands cs (l, r)).2 =
      { visible := true, position := c.position, quaternion := c.quaternion }) ∧
    (cs[1]? = none → (updateHands cs (l, r)).2 = r) ∧
    (l.visible = true → (updateHands cs (l, r)).1.visible = true) ∧
    (r.visible = true → (updateHands cs (l, r)).2.visible = true) := by
  refine ⟨⟨rfl, rfl⟩, ?_, ?_, ?_, ?_, ?_, ?_⟩
  · intro c hc
    simp [updateHands, hc]
  · intro hc
    simp [updateHands, hc]
  · intro c hc
    simp [updateHands, hc]
  · intro hc
    simp [updateHands, hc]
  · intro hv
    cases h0 : cs[0]? <;> simp [updateHands, h0, hv]
  · intro hv
    cases h1 : cs[1]? <;> simp [updateHands, h1, hv]

theorem updateHands_spec_witness :
    ((initialPlayerHands.1.visible = false ∧
        initialPlayerHands.2.visible = false) ∧
      (updateHands [{ position := (1, 2, 3), quaternion := (0, 0, 0, 1) }]
          initialPlayerHands).1 =
        { visible := true, position := (1, 2, 3),
          quaternion := (0, 0, 0, 1) } ∧
      (updateHands [{ position := (1, 2, 3), quaternion := (0, 0, 0, 1) }]
          initialPlayerHands).2 = initialPlayerHands.2) := by
  have h := updateHands_spec
    [{ position := (1, 2, 3), quaternion := (0, 0, 0, 1) }]
    initialPlayerHands.1 initialPlayerHands.2
  exact ⟨h.1, h.2.1 _ rfl, h.2.2.2.2.1 rfl⟩

/-- C10: with both ambient sources playing, updateAudioForTimeOfDay(t) sets
the birds volume to 0.5 * max(0, sin(2πt)) and the night volume to
0.5 * (1 - max(0, sin(2πt))); both volumes lie in [0, 0.5] and they sum to
exactly 0.5 (using that the host sine never exceeds 1). -/
theorem updateAudio_volume_split (sinQ : ℚ → ℚ) (piQ t : ℚ) (a : AudioState)
    (hb : a.birdsPlaying = true) (hn : a.nightPlaying = true)
    (hsin : sinQ (t * piQ * 2) ≤ 1) :
    (updateAudioForTimeOfDay sinQ piQ t a).birdsVolume =
      (1/2) * max 0 (sinQ (t * piQ * 2)) ∧
    (updateAudioForTimeOfDay sinQ piQ t a).nightVolume =
      (1/2) * (1 - max 0 (sinQ (t * piQ * 2))) ∧
    0 ≤ (updateAudioForTimeOfDay sinQ piQ t a).birdsVolume ∧
    (updateAudioForTimeOfDay sinQ piQ t a).birdsVolume ≤ 1/2 ∧
    0 ≤ (updateAudioForTimeOfDay sinQ piQ t a).nightVolume ∧
    (updateAudioForTimeOfDay sinQ piQ t a).nightVolume ≤ 1/2 ∧
    (updateAudioForTimeOfDay sinQ piQ t a).birdsVolume +
      (updateAudioForTimeOfDay sinQ piQ t a).nightVolume = 1/2 := by
  have hbv : (updateAudioForTimeOfDay sinQ piQ t a).birdsVolume =
      (1/2) * max 0 (sinQ (t * piQ * 2)) := by
    simp [updateAudioForTimeOfDay, dayFactor, hb]
  have hnv : (updateAudioForTimeOfDay sinQ piQ t a).nightVolume =
      (1/2) * (1 - max 0 (sinQ (t * piQ * 2))) := by
    simp [updateAudioForTimeOfDay, dayFactor, hn]
  have hd0 : 0 ≤ max 0 (sinQ (t * piQ * 2)) := le_max_left 0 _
  have hd1 : max 0 (sinQ (t * piQ * 2)) ≤ 1 := max_le (by norm_num) hsin
  refine ⟨hbv, hnv, ?_, ?_, ?_, ?_, ?_⟩
  · rw [hbv]; linarith
  · rw [hbv]; linarith
  · rw [hnv]; linarith
  · rw [hnv]; linarith
  · rw [hbv, hnv]; ring

theorem updateAudio_volume_split_witness :
    (updateAudioForTimeOfDay (fun _ => 1/2) 3 1
        { birdsPlaying := true, birdsVolume := 0, nightPlaying := true,
          nightVolume := 0, phase := DayNightPhase.day }).birdsVolume =
      (1/2) * max 0 ((fun _ : ℚ => (1/2 : ℚ)) ((1 : ℚ) * 3 * 2)) ∧
    (updateAudioForTimeOfDay (fun _ => 1/2) 3 1
        { birdsPlaying := true, birdsVolume := 0, nightPlaying := true,
          nightVolume := 0, phase := DayNightPhase.day }).birdsVolume +
      (updateAudioForTimeOfDay (fun _ => 1/2) 3 1
        { birdsPlaying := true, birdsVolume := 0, nightPlaying := true,
          nightVolume := 0, phase := DayNightPhase.day }).nightVolume = 1/2 := by
  have h := updateAudio_volume_split (fun _ => 1/2) 3 1
    { birdsPlaying := true, birdsVolume := 0, nightPlaying := true,
      nightVolume := 0, phase := DayNightPhase.day } rfl rfl (by norm_num)
  exact ⟨h.1, h.2.2.2.2.2.2⟩

end WebXR
